import Mathlib

set_option maxRecDepth 40000

/-!
Shallow embedding of the UDP tracked-object packet decoder in
`src/client_udp.py` (functions `calculate_crc16` and `parse_and_validate`),
together with proofs of the behavioural properties claimed for it.

Bytes are modelled as natural numbers and byte strings as `List Nat`;
all machine arithmetic is on `Nat` with explicit masking (`&&& 0xFFFF`),
exactly where the Python code masks.  The decoder's distinct outcomes
(early `return None` on a short frame, on a bad header, on a bad CRC, and
the final result dict) are modelled by the inductive `ParseResult`.
-/

/-- One iteration of the inner bit loop of `calculate_crc16`
(`src/client_udp.py` lines 22-27): shift the register left, XOR in the
polynomial `0x1021` when the top bit was set before the shift, and mask
the register back to 16 bits. -/
def crcStepBit (crc : Nat) : Nat :=
  if crc &&& 0x8000 ≠ 0 then ((crc <<< 1) ^^^ 0x1021) &&& 0xFFFF
  else (crc <<< 1) &&& 0xFFFF

/-- Processing of one input byte (`src/client_udp.py` lines 20-27): XOR the
byte into the high byte of the register, then run the bit loop eight times. -/
def crcByte (crc b : Nat) : Nat := crcStepBit^[8] (crc ^^^ (b <<< 8))

/-- `calculate_crc16` (`src/client_udp.py` lines 7-29): fold the per-byte
update over the data, starting from register `0xFFFF`. -/
def calculate_crc16 (data : List Nat) : Nat := data.foldl crcByte 0xFFFF

/-- One decoded object record: the dict built at `src/client_udp.py`
line 127, with keys `CLS`, `ID_TRACK`, `X`, `Y`, `Z`. -/
structure TrackedObject where
  CLS : Nat
  ID_TRACK : Nat
  X : Nat
  Y : Nat
  Z : Nat
deriving DecidableEq

/-- The dict returned on the success path of `parse_and_validate`
(`src/client_udp.py` lines 141-148). -/
structure DecodedPacket where
  header : Nat
  nb_objects : Nat
  crc_received : Nat
  crc_calculated : Nat
  crc_valid : Bool
  objects : List TrackedObject
deriving DecidableEq

/-- The distinct outcomes of `parse_and_validate`.  In Python the first
three are all `return None`, distinguished only by the message printed on
that path (`src/client_udp.py` lines 45-47, 60-62, 80-84); `ok` is the dict
returned at lines 141-148. -/
inductive ParseResult where
  | tooShort : ParseResult
  | headerInvalid (found : Nat) : ParseResult
  | crcInvalid (received calculated : Nat) : ParseResult
  | ok (packet : DecodedPacket) : ParseResult
deriving DecidableEq

/-- Whether an outcome is the success path returning a packet dict. -/
def returnsPacket : ParseResult → Bool
  | ParseResult.ok _ => true
  | _ => false

/-- Big-endian assembly of four bytes at offset `o`
(`src/client_udp.py` lines 104-125, one of the X/Y/Z fields). -/
def be32 (d : List Nat) (o : Nat) : Nat :=
  (d.getD o 0 <<< 24) ||| (d.getD (o + 1) 0 <<< 16) |||
    (d.getD (o + 2) 0 <<< 8) ||| d.getD (o + 3) 0

/-- Decoding of one 14-byte record at offset `o`
(`src/client_udp.py` lines 100-127). -/
def readObject (d : List Nat) (o : Nat) : TrackedObject :=
  { CLS := d.getD o 0
    ID_TRACK := d.getD (o + 1) 0
    X := be32 d (o + 2)
    Y := be32 d (o + 6)
    Z := be32 d (o + 10) }

/-- The record loop of `parse_and_validate` (`src/client_udp.py` lines
94-137): up to `n` iterations; stop as soon as fewer than 14 bytes remain
before the 2-byte trailer, else read a record and advance the offset by 14. -/
def parseObjects (d : List Nat) (o : Nat) : Nat → List TrackedObject
  | 0 => []
  | n + 1 =>
    if o + 14 > d.length - 2 then []
    else readObject d o :: parseObjects d (o + 14) n

/-- The CRC read from the last two frame bytes, big-endian
(`src/client_udp.py` line 50). -/
def crc_received (data : List Nat) : Nat :=
  (data.getD (data.length - 2) 0 <<< 8) ||| data.getD (data.length - 1) 0

/-- The CRC computed over the frame without its last two bytes
(`src/client_udp.py` line 53). -/
def crc_calculated_of (data : List Nat) : Nat :=
  calculate_crc16 (data.take (data.length - 2))

/-- `parse_and_validate` (`src/client_udp.py` lines 32-153): length check,
CRC extraction and computation, header check, CRC-validity branch, then the
record loop and the result dict.  The Python function checks the header
(line 60) before it branches on CRC validity (line 78). -/
def parse_and_validate (data : List Nat) : ParseResult :=
  if data.length < 4 then ParseResult.tooShort
  else
    let received_crc := crc_received data
    let calculated_crc := crc_calculated_of data
    let crc_valid := received_crc == calculated_crc
    let header := data.getD 0 0
    if header ≠ 0xFB then ParseResult.headerInvalid header
    else
      let nb_objects := data.getD 1 0
      if crc_valid then
        ParseResult.ok
          { header := header
            nb_objects := nb_objects
            crc_received := received_crc
            crc_calculated := calculated_crc
            crc_valid := crc_valid
            objects := parseObjects data 2 nb_objects }
      else ParseResult.crcInvalid received_crc calculated_crc

/-- The keys of the dict returned on the success path
(`src/client_udp.py` lines 141-148): exactly these six, in this order. -/
def packetKeys : List String :=
  ["header", "nb_objects", "crc_received", "crc_calculated", "crc_valid", "objects"]

/-- Big-endian assembly with every byte access through `getElem?`, failing
(like a Python `IndexError`) when an index is out of range. -/
def be32Opt (d : List Nat) (o : Nat) : Option Nat := do
  let b0 ← d[o]?
  let b1 ← d[o + 1]?
  let b2 ← d[o + 2]?
  let b3 ← d[o + 3]?
  some ((b0 <<< 24) ||| (b1 <<< 16) ||| (b2 <<< 8) ||| b3)

/-- Record decoding with checked byte accesses. -/
def readObjectOpt (d : List Nat) (o : Nat) : Option TrackedObject := do
  let c ← d[o]?
  let t ← d[o + 1]?
  let x ← be32Opt d (o + 2)
  let y ← be32Opt d (o + 6)
  let z ← be32Opt d (o + 10)
  some { CLS := c, ID_TRACK := t, X := x, Y := y, Z := z }

/-- The record loop with checked byte accesses. -/
def parseObjectsOpt (d : List Nat) (o : Nat) : Nat → Option (List TrackedObject)
  | 0 => some []
  | n + 1 =>
    if o + 14 > d.length - 2 then some []
    else do
      let obj ← readObjectOpt d o
      let rest ← parseObjectsOpt d (o + 14) n
      some (obj :: rest)

/-- `parse_and_validate` with every byte access checked: `none` models an
uncaught index error escaping the parsing logic. -/
def parse_and_validateOpt (data : List Nat) : Option ParseResult :=
  if data.length < 4 then some ParseResult.tooShort
  else do
    let hi ← data[data.length - 2]?
    let lo ← data[data.length - 1]?
    let received_crc := (hi <<< 8) ||| lo
    let calculated_crc := calculate_crc16 (data.take (data.length - 2))
    let header ← data[0]?
    if header ≠ 0xFB then some (ParseResult.headerInvalid header)
    else do
      let nb_objects ← data[1]?
      if received_crc == calculated_crc then do
        let objs ← parseObjectsOpt data 2 nb_objects
        some (ParseResult.ok
          { header := header
            nb_objects := nb_objects
            crc_received := received_crc
            crc_calculated := calculated_crc
            crc_valid := received_crc == calculated_crc
            objects := objs })
      else some (ParseResult.crcInvalid received_crc calculated_crc)

/-- The CRC-16/CCITT-FALSE register update for one shift, written as the
spec describes it: double the register, XOR the polynomial when bit 15 was
set, reduce modulo 2^16. -/
def crc16_spec_step (c : Nat) : Nat :=
  if c.testBit 15 then ((2 * c) ^^^ 0x1021) % 65536 else (2 * c) % 65536

/-- The spec's per-byte CRC update: XOR the byte into the high byte of the
register, then perform eight shift steps. -/
def crc16_spec_byte (c b : Nat) : Nat :=
  (List.range 8).foldl (fun s _ => crc16_spec_step s) (c ^^^ b * 256)

/-- CRC-16/CCITT-FALSE as described in the spec: initial register `0xFFFF`,
polynomial `0x1021`, no reflection, no final XOR. -/
def crc16_ccitt_spec (data : List Nat) : Nat :=
  data.foldl crc16_spec_byte 0xFFFF

theorem xorLeftComm (a b c : Nat) : a ^^^ (b ^^^ c) = b ^^^ (a ^^^ c) := by
  rw [← Nat.xor_assoc, Nat.xor_comm a b, Nat.xor_assoc]

theorem shiftLeft_xor_distrib (a b n : Nat) :
    (a ^^^ b) <<< n = (a <<< n) ^^^ (b <<< n) := by
  apply Nat.eq_of_testBit_eq
  intro i
  by_cases h : n ≤ i <;>
    simp [Nat.testBit_shiftLeft, Nat.testBit_xor, h]

theorem crcStepBit_eq (v : Nat) :
    crcStepBit v = ((v <<< 1) ^^^ (if v.testBit 15 then 0x1021 else 0)) &&& 0xFFFF := by
  have h8 : v &&& 32768 = (v.testBit 15).toNat * 32768 := by
    have h := Nat.and_two_pow v 15
    norm_num at h
    exact h
  cases h : v.testBit 15 <;> rw [h] at h8 <;> simp [crcStepBit, h8]

theorem crcStepBit_xor (a b : Nat) :
    crcStepBit (a ^^^ b) = crcStepBit a ^^^ crcStepBit b := by
  rw [crcStepBit_eq, crcStepBit_eq, crcStepBit_eq, Nat.testBit_xor,
    shiftLeft_xor_distrib, ← Nat.and_xor_distrib_right]
  congr 1
  cases ha : a.testBit 15 <;> cases hb : b.testBit 15 <;>
    simp [Nat.xor_assoc, Nat.xor_comm, xorLeftComm]

theorem crcStepBit_iterate_xor (n a b : Nat) :
    crcStepBit^[n] (a ^^^ b) = crcStepBit^[n] a ^^^ crcStepBit^[n] b := by
  induction n generalizing a b with
  | zero => rfl
  | succ k ih =>
    rw [Function.iterate_succ_apply, Function.iterate_succ_apply,
      Function.iterate_succ_apply, crcStepBit_xor, ih]

theorem crcByte_xor (c d b : Nat) :
    crcByte (c ^^^ d) b = crcByte c b ^^^ crcStepBit^[8] d := by
  unfold crcByte
  rw [show (c ^^^ d) ^^^ b <<< 8 = (c ^^^ b <<< 8) ^^^ d by
    rw [Nat.xor_assoc, Nat.xor_comm d, ← Nat.xor_assoc]]
  exact crcStepBit_iterate_xor 8 _ d

theorem foldl_crcByte_xor (l : List Nat) (c d : Nat) :
    l.foldl crcByte (c ^^^ d) = l.foldl crcByte c ^^^ crcStepBit^[8 * l.length] d := by
  induction l generalizing c d with
  | nil => simp
  | cons b t ih =>
    rw [List.foldl_cons, List.foldl_cons, crcByte_xor, ih,
      ← Function.iterate_add_apply]
    have h : 8 * (b :: t).length = 8 * t.length + 8 := by
      simp [List.length_cons]; ring
    rw [h]

theorem foldl_crcByte_set (l : List Nat) (i c e : Nat) (hi : i < l.length) :
    (l.set i (l.getD i 0 ^^^ e)).foldl crcByte c
      = l.foldl crcByte c ^^^ crcStepBit^[8 * (l.length - i)] (e <<< 8) := by
  induction l generalizing i c with
  | nil => cases hi
  | cons b t ih =>
    cases i with
    | zero =>
      have hb : crcByte c (b ^^^ e) = crcByte c b ^^^ crcStepBit^[8] (e <<< 8) := by
        unfold crcByte
        rw [shiftLeft_xor_distrib, ← Nat.xor_assoc]
        exact crcStepBit_iterate_xor 8 _ _
      simp only [List.set, List.getD_cons_zero, List.foldl_cons, hb,
        foldl_crcByte_xor, ← Function.iterate_add_apply]
      have h : 8 * ((b :: t).length - 0) = 8 * t.length + 8 := by
        simp [List.length_cons]; ring
      rw [h]
    | succ i0 =>
      have hi0 : i0 < t.length := by
        simpa [List.length_cons] using hi
      simp only [List.set, List.getD_cons_succ, List.foldl_cons]
      rw [ih i0 (crcByte c b) hi0]
      have h : 8 * ((b :: t).length - (i0 + 1)) = 8 * (t.length - i0) := by
        simp [List.length_cons]
      rw [h]

theorem calculate_crc16_set (l : List Nat) (i e : Nat) (hi : i < l.length) :
    calculate_crc16 (l.set i (l.getD i 0 ^^^ e))
      = calculate_crc16 l ^^^ crcStepBit^[8 * (l.length - i)] (e <<< 8) :=
  foldl_crcByte_set l i 0xFFFF e hi

theorem crcStepBit_lt (v : Nat) : crcStepBit v < 65536 := by
  unfold crcStepBit
  split <;> exact Nat.lt_of_le_of_lt Nat.and_le_right (by norm_num)

theorem crcStepBit_ne_zero (v : Nat) (hlt : v < 65536) (h0 : v ≠ 0) :
    crcStepBit v ≠ 0 := by
  rw [crcStepBit_eq]
  cases h : v.testBit 15 with
  | true =>
    intro hc
    have heven : v <<< 1 = 2 * v := by
      rw [Nat.shiftLeft_eq]
      ring
    have hbit : ((v <<< 1 ^^^ (if true = true then 0x1021 else 0)) &&& 0xFFFF).testBit 0
        = true := by
      simp [Nat.testBit_land, Nat.testBit_xor, heven]
      omega
    rw [hc] at hbit
    simp [Nat.zero_testBit] at hbit
  | false =>
    obtain ⟨k, hk, hmax⟩ := Nat.exists_most_significant_bit h0
    have hk16 : k < 16 := by
      by_contra hge
      have hle : (65536 : Nat) ≤ 2 ^ k := by
        calc (65536 : Nat) = 2 ^ 16 := by norm_num
        _ ≤ 2 ^ k := Nat.pow_le_pow_right (by norm_num) (Nat.not_lt.1 hge)
      have hb : v.testBit k = false :=
        Nat.testBit_lt_two_pow (Nat.lt_of_lt_of_le hlt hle)
      rw [hb] at hk
      exact Bool.noConfusion hk
    have hk15 : k ≠ 15 := by
      intro he
      rw [he, h] at hk
      exact Bool.noConfusion hk
    intro hc
    have hs : (v <<< 1).testBit (k + 1) = v.testBit k := by
      rw [Nat.testBit_shiftLeft]
      have h1 : (1 : Nat) ≤ k + 1 := by omega
      simp [h1]
    have hm : (65535 : Nat).testBit (k + 1) = true := by
      have h1 : (65535 : Nat) = 2 ^ 16 - 1 := by norm_num
      rw [h1, Nat.testBit_two_pow_sub_one]
      exact decide_eq_true (by omega)
    have hbit : ((v <<< 1 ^^^ (if false = true then 0x1021 else 0)) &&& 0xFFFF).testBit (k + 1)
        = true := by
      simp [Nat.testBit_land, Nat.testBit_xor, hs, hk, hm]
    rw [hc] at hbit
    simp [Nat.zero_testBit] at hbit

theorem crcStepBit_iterate_ne_zero (n v : Nat) (hlt : v < 65536) (h0 : v ≠ 0) :
    crcStepBit^[n] v ≠ 0 := by
  induction n generalizing v with
  | zero => simpa
  | succ k ih =>
    rw [Function.iterate_succ_apply]
    exact ih (crcStepBit v) (crcStepBit_lt v) (crcStepBit_ne_zero v hlt h0)

theorem calculate_crc16_flip_ne (l : List Nat) (i j : Nat)
    (hi : i < l.length) (hj : j < 8) :
    calculate_crc16 (l.set i (l.getD i 0 ^^^ 1 <<< j)) ≠ calculate_crc16 l := by
  rw [calculate_crc16_set l i _ hi]
  intro hc
  have h2 : calculate_crc16 l ^^^ crcStepBit^[8 * (l.length - i)] ((1 <<< j) <<< 8)
      = calculate_crc16 l ^^^ 0 := by
    rw [Nat.xor_zero]
    exact hc
  have hD : crcStepBit^[8 * (l.length - i)] ((1 <<< j) <<< 8) = 0 := Nat.xor_right_inj.1 h2
  have hpow : (1 <<< j) <<< 8 = 2 ^ (j + 8) := by
    rw [Nat.one_shiftLeft, Nat.shiftLeft_eq, ← Nat.pow_add]
  have hlt : (1 <<< j) <<< 8 < 65536 := by
    rw [hpow]
    calc 2 ^ (j + 8) < 2 ^ 16 := Nat.pow_lt_pow_right (by norm_num) (by omega)
    _ = 65536 := by norm_num
  have hne : (1 <<< j) <<< 8 ≠ 0 := by
    rw [hpow]
    exact (Nat.two_pow_pos (j + 8)).ne'
  exact crcStepBit_iterate_ne_zero _ _ hlt hne hD

theorem crc16_spec_step_eq (c : Nat) : crc16_spec_step c = crcStepBit c := by
  rw [crcStepBit_eq, crc16_spec_step]
  have hm : ∀ x : Nat, x &&& 0xFFFF = x % 65536 := by
    intro x
    calc x &&& 65535 = x &&& (2 ^ 16 - 1) := by norm_num
    _ = x % 2 ^ 16 := Nat.and_pow_two_sub_one_eq_mod x 16
    _ = x % 65536 := by norm_num
  have hsh : c <<< 1 = 2 * c := by
    rw [Nat.shiftLeft_eq]
    ring
  cases h : c.testBit 15 <;> simp [h, hm, hsh]

theorem crc16_spec_byte_eq (c b : Nat) : crc16_spec_byte c b = crcByte c b := by
  have h8 : b * 256 = b <<< 8 := by
    rw [Nat.shiftLeft_eq]
  rw [crc16_spec_byte, crcByte, h8]
  simp only [crc16_spec_step_eq]
  rfl

theorem parseObjects_length (d : List Nat) (n : Nat) :
    ∀ o, (parseObjects d o n).length = min n ((d.length - 2 - o) / 14) := by
  induction n with
  | zero =>
    intro o
    simp [parseObjects]
  | succ k ih =>
    intro o
    unfold parseObjects
    by_cases hg : o + 14 > d.length - 2
    · rw [if_pos hg]
      have hq : (d.length - 2 - o) / 14 = 0 := Nat.div_eq_of_lt (by omega)
      simp [hq]
    · rw [if_neg hg, List.length_cons, ih (o + 14)]
      have h14 : 14 ≤ d.length - 2 - o := by omega
      have hdiv : (d.length - 2 - o) / 14 = (d.length - 2 - o - 14) / 14 + 1 :=
        Nat.div_eq_sub_div (by norm_num) h14
      have hsub : d.length - 2 - (o + 14) = d.length - 2 - o - 14 := by omega
      rw [hsub, hdiv]
      omega

theorem parseObjects_eq_map (d : List Nat) (n : Nat) :
    ∀ o, parseObjects d o n
      = (List.range (parseObjects d o n).length).map (fun i => readObject d (o + 14 * i)) := by
  induction n with
  | zero =>
    intro o
    simp [parseObjects]
  | succ k ih =>
    intro o
    unfold parseObjects
    by_cases hg : o + 14 > d.length - 2
    · rw [if_pos hg]
      simp
    · rw [if_neg hg, List.length_cons, List.range_succ_eq_map, List.map_cons, List.map_map]
      simp only [List.cons.injEq]
      constructor
      · norm_num
      · rw [ih (o + 14), List.length_map, List.length_range]
        apply List.map_congr_left
        intro i hmem
        simp only [Function.comp]
        congr 1
        omega

theorem parseObjects_agree (d d2 : List Nat) (n : Nat)
    (hlen : d2.length = d.length)
    (hag : ∀ i, i < d.length - 2 → d2.getD i 0 = d.getD i 0) :
    ∀ o, parseObjects d2 o n = parseObjects d o n := by
  induction n with
  | zero =>
    intro o
    rfl
  | succ k ih =>
    intro o
    unfold parseObjects
    rw [hlen]
    by_cases hg : o + 14 > d.length - 2
    · rw [if_pos hg, if_pos hg]
    · rw [if_neg hg, if_neg hg, ih (o + 14)]
      have hro : readObject d2 o = readObject d o := by
        simp only [readObject, be32]
        rw [hag o (by omega), hag (o + 1) (by omega), hag (o + 2) (by omega),
          hag (o + 2 + 1) (by omega), hag (o + 2 + 2) (by omega), hag (o + 2 + 3) (by omega),
          hag (o + 6) (by omega), hag (o + 6 + 1) (by omega), hag (o + 6 + 2) (by omega),
          hag (o + 6 + 3) (by omega), hag (o + 10) (by omega), hag (o + 10 + 1) (by omega),
          hag (o + 10 + 2) (by omega), hag (o + 10 + 3) (by omega)]
      rw [hro]

theorem getElem?_eq_some_getD (l : List Nat) (i : Nat) (h : i < l.length) :
    l[i]? = some (l.getD i 0) := by
  rw [List.getElem?_eq_getElem h, List.getD_eq_getElem l 0 h]

theorem be32Opt_eq (d : List Nat) (o : Nat) (h : o + 4 ≤ d.length) :
    be32Opt d o = some (be32 d o) := by
  unfold be32Opt be32
  rw [getElem?_eq_some_getD d o (by omega), getElem?_eq_some_getD d (o + 1) (by omega),
    getElem?_eq_some_getD d (o + 2) (by omega), getElem?_eq_some_getD d (o + 3) (by omega)]
  rfl

theorem readObjectOpt_eq (d : List Nat) (o : Nat) (h : o + 14 ≤ d.length) :
    readObjectOpt d o = some (readObject d o) := by
  unfold readObjectOpt readObject
  rw [getElem?_eq_some_getD d o (by omega), getElem?_eq_some_getD d (o + 1) (by omega),
    be32Opt_eq d (o + 2) (by omega), be32Opt_eq d (o + 6) (by omega),
    be32Opt_eq d (o + 10) (by omega)]
  rfl

theorem parseObjectsOpt_eq (d : List Nat) (n : Nat) :
    ∀ o, parseObjectsOpt d o n = some (parseObjects d o n) := by
  induction n with
  | zero =>
    intro o
    rfl
  | succ k ih =>
    intro o
    unfold parseObjectsOpt parseObjects
    by_cases hg : o + 14 > d.length - 2
    · rw [if_pos hg, if_pos hg]
    · have h14 : o + 14 ≤ d.length :=
        le_trans (Nat.not_lt.1 hg) (Nat.sub_le _ _)
      rw [if_neg hg, if_neg hg, readObjectOpt_eq d o h14, ih (o + 14)]
      rfl

/-- C1 counterexample: on the 4-byte frame `FB 00 00 00`, whose CRC16 trailer
`0x0000` differs from the computed CRC `53812`, `parse_and_validate` does not
return a packet dict at all: it takes the checksum-invalid early-return path
(Python `return None`), so no `DecodedPacket` with `checksum_valid = false`
is produced. -/
theorem C1_counterexample :
    returnsPacket (parse_and_validate [0xFB, 0, 0, 0]) = false ∧
      parse_and_validate [0xFB, 0, 0, 0] = ParseResult.crcInvalid 0 53812 := by
  decide

/-- C1 (amended): for every frame of length ≥ 4 whose CRC16 trailer does not
match the CRC computed over the preceding bytes, `parse_and_validate` returns
`None` without parsing any record: the checksum-invalid outcome when the
header byte is `0xFB`, and the header-invalid outcome otherwise (the header
check runs first). -/
theorem C1_amended (data : List Nat) (h4 : 4 ≤ data.length)
    (hbad : crc_received data ≠ crc_calculated_of data) :
    parse_and_validate data =
      if data.getD 0 0 = 0xFB then
        ParseResult.crcInvalid (crc_received data) (crc_calculated_of data)
      else ParseResult.headerInvalid (data.getD 0 0) := by
  simp only [parse_and_validate]
  rw [if_neg (by omega)]
  by_cases hh : data.getD 0 0 = 0xFB
  · rw [if_neg (fun hcon => hcon hh), if_neg (by simp [hbad]), if_pos hh]
  · rw [if_pos hh, if_neg hh]

/-- C1 witness: the amended statement at the concrete frame `FB 01 00 00`
(received CRC 0, computed CRC 49685). -/
theorem C1_witness :
    parse_and_validate [0xFB, 1, 0, 0] =
      if ([0xFB, 1, 0, 0] : List Nat).getD 0 0 = 0xFB then
        ParseResult.crcInvalid (crc_received [0xFB, 1, 0, 0]) (crc_calculated_of [0xFB, 1, 0, 0])
      else ParseResult.headerInvalid (([0xFB, 1, 0, 0] : List Nat).getD 0 0) :=
  C1_amended [0xFB, 1, 0, 0] (by decide) (by decide)

/-- C2 counterexample: the frame `00 00 00 00` has an invalid CRC16 trailer
(received 0, computed 7439), yet `parse_and_validate` yields the
header-invalid outcome, not the checksum-invalid one: the header check runs
before the CRC-validity branch, contrary to the claim. -/
theorem C2_counterexample :
    parse_and_validate [0, 0, 0, 0] = ParseResult.headerInvalid 0 ∧
      crc_received [0, 0, 0, 0] ≠ crc_calculated_of [0, 0, 0, 0] := by
  decide

/-- C2 (amended): for every frame of length ≥ 4, `parse_and_validate` yields
the header-invalid outcome exactly when byte 0 is not `0xFB`, regardless of
checksum validity; a frame whose byte 0 is `0xFB` but whose CRC16 trailer is
invalid yields the checksum-invalid outcome. -/
theorem C2_amended (data : List Nat) (h4 : 4 ≤ data.length) :
    (parse_and_validate data = ParseResult.headerInvalid (data.getD 0 0)
        ↔ data.getD 0 0 ≠ 0xFB) ∧
      (data.getD 0 0 = 0xFB → crc_received data ≠ crc_calculated_of data →
        parse_and_validate data
          = ParseResult.crcInvalid (crc_received data) (crc_calculated_of data)) := by
  constructor
  · constructor
    · intro h hcon
      simp only [parse_and_validate] at h
      rw [if_neg (by omega), if_neg (fun hne => hne hcon)] at h
      by_cases hv : (crc_received data == crc_calculated_of data) = true
      · rw [if_pos hv] at h
        exact ParseResult.noConfusion h
      · rw [if_neg hv] at h
        exact ParseResult.noConfusion h
    · intro hne
      simp only [parse_and_validate]
      rw [if_neg (by omega), if_pos hne]
  · intro hh hbad
    simp only [parse_and_validate]
    rw [if_neg (by omega), if_neg (fun hne => hne hh), if_neg (by simp [hbad])]

/-- C2 witness: the amended statement at the concrete frame `00 00 00 00`. -/
theorem C2_witness :
    (parse_and_validate [0, 0, 0, 0]
          = ParseResult.headerInvalid (([0, 0, 0, 0] : List Nat).getD 0 0)
        ↔ ([0, 0, 0, 0] : List Nat).getD 0 0 ≠ 0xFB) ∧
      (([0, 0, 0, 0] : List Nat).getD 0 0 = 0xFB →
        crc_received [0, 0, 0, 0] ≠ crc_calculated_of [0, 0, 0, 0] →
        parse_and_validate [0, 0, 0, 0]
          = ParseResult.crcInvalid (crc_received [0, 0, 0, 0]) (crc_calculated_of [0, 0, 0, 0])) :=
  C2_amended [0, 0, 0, 0] (by decide)

/-- C3 counterexample: the result dict of `parse_and_validate` has no
`truncated` key at all, so the decoder cannot "set truncated = true"; on a
valid CRC16 frame declaring 2 records but carrying only 1, the full returned
value is an ordinary success dict with the six keys and the single parsed
object. -/
theorem C3_counterexample :
    ¬ ("truncated" ∈ packetKeys) ∧
      parse_and_validate [0xFB, 2, 1, 2, 0, 0, 0, 3, 0, 0, 0, 4, 0, 0, 0, 5, 58, 28]
        = ParseResult.ok
            { header := 0xFB, nb_objects := 2, crc_received := 14876,
              crc_calculated := 14876, crc_valid := true,
              objects := [{ CLS := 1, ID_TRACK := 2, X := 3, Y := 4, Z := 5 }] } := by
  decide

/-- C3 (amended): for every frame that passes the checksum and header checks
but contains fewer complete 14-byte records before the trailer than
`frame[1]` declares, decoding stops at the first incomplete record and the
records parsed so far — exactly `min(declared, ⌊(len-4)/14⌋) = ⌊(len-4)/14⌋`
of them — are returned as a success; truncation is reported on the console
only, there is no `truncated` field in the result. -/
theorem C3_amended (data : List Nat) (h4 : 4 ≤ data.length)
    (hh : data.getD 0 0 = 0xFB)
    (hv : crc_received data = crc_calculated_of data)
    (htr : (data.length - 4) / 14 < data.getD 1 0) :
    parse_and_validate data
        = ParseResult.ok
            (DecodedPacket.mk 0xFB (data.getD 1 0) (crc_received data)
              (crc_calculated_of data) true (parseObjects data 2 (data.getD 1 0))) ∧
      (parseObjects data 2 (data.getD 1 0)).length = (data.length - 4) / 14 ∧
      (parseObjects data 2 (data.getD 1 0)).length < data.getD 1 0 := by
  have he : data.length - 2 - 2 = data.length - 4 := by omega
  refine ⟨?_, ?_, ?_⟩
  · simp only [parse_and_validate]
    rw [if_neg (by omega), if_neg (fun hne => hne hh), if_pos (by simp [hv]), hh, hv]
    simp
  · rw [parseObjects_length, he]
    omega
  · rw [parseObjects_length, he]
    omega

/-- C3 witness: the amended statement at an 18-byte frame with a valid CRC
declaring 2 records but carrying only 1 complete record. -/
theorem C3_witness :
    parse_and_validate [0xFB, 2, 1, 2, 0, 0, 0, 3, 0, 0, 0, 4, 0, 0, 0, 5, 58, 28]
        = ParseResult.ok
            (DecodedPacket.mk 0xFB
              (([0xFB, 2, 1, 2, 0, 0, 0, 3, 0, 0, 0, 4, 0, 0, 0, 5, 58, 28] : List Nat).getD 1 0)
              (crc_received [0xFB, 2, 1, 2, 0, 0, 0, 3, 0, 0, 0, 4, 0, 0, 0, 5, 58, 28])
              (crc_calculated_of [0xFB, 2, 1, 2, 0, 0, 0, 3, 0, 0, 0, 4, 0, 0, 0, 5, 58, 28])
              true
              (parseObjects [0xFB, 2, 1, 2, 0, 0, 0, 3, 0, 0, 0, 4, 0, 0, 0, 5, 58, 28] 2
                (([0xFB, 2, 1, 2, 0, 0, 0, 3, 0, 0, 0, 4, 0, 0, 0, 5, 58, 28] : List Nat).getD 1 0))) ∧
      (parseObjects [0xFB, 2, 1, 2, 0, 0, 0, 3, 0, 0, 0, 4, 0, 0, 0, 5, 58, 28] 2
          (([0xFB, 2, 1, 2, 0, 0, 0, 3, 0, 0, 0, 4, 0, 0, 0, 5, 58, 28] : List Nat).getD 1 0)).length
        = (([0xFB, 2, 1, 2, 0, 0, 0, 3, 0, 0, 0, 4, 0, 0, 0, 5, 58, 28] : List Nat).length - 4) / 14 ∧
      (parseObjects [0xFB, 2, 1, 2, 0, 0, 0, 3, 0, 0, 0, 4, 0, 0, 0, 5, 58, 28] 2
          (([0xFB, 2, 1, 2, 0, 0, 0, 3, 0, 0, 0, 4, 0, 0, 0, 5, 58, 28] : List Nat).getD 1 0)).length
        < ([0xFB, 2, 1, 2, 0, 0, 0, 3, 0, 0, 0, 4, 0, 0, 0, 5, 58, 28] : List Nat).getD 1 0 :=
  C3_amended [0xFB, 2, 1, 2, 0, 0, 0, 3, 0, 0, 0, 4, 0, 0, 0, 5, 58, 28]
    (by decide) (by decide) (by decide) (by decide)

/-- C4: `calculate_crc16` computes CRC-16/CCITT-FALSE exactly as the spec
describes it — register initialised to `0xFFFF`, each byte XOR-ed into the
high byte, eight shift steps XOR-ing polynomial `0x1021` whenever the top
bit was set, register kept to 16 bits, no reflection and no final XOR — and
on the empty byte sequence the result is `0xFFFF`. -/
theorem C4_crc16_matches_spec (data : List Nat) :
    calculate_crc16 data = crc16_ccitt_spec data ∧ calculate_crc16 [] = 0xFFFF := by
  constructor
  · rw [calculate_crc16, crc16_ccitt_spec]
    have hf : crc16_spec_byte = crcByte := by
      funext c b
      exact crc16_spec_byte_eq c b
    rw [hf]
  · rfl

/-- C4 witness: the statement at the concrete byte sequence `FB 00`. -/
theorem C4_witness :
    calculate_crc16 [0xFB, 0] = crc16_ccitt_spec [0xFB, 0] ∧ calculate_crc16 [] = 0xFFFF :=
  C4_crc16_matches_spec [0xFB, 0]

/-- C5: record parsing never reads the 2-byte trailer: the record loop's
output depends only on bytes at indices strictly below `len(frame) - 2`, so
two frames of equal length agreeing on all such indices decode to the same
object list. -/
theorem C5_trailer_never_read (d d2 : List Nat) (n : Nat)
    (hlen : d2.length = d.length)
    (hag : ∀ i, i < d.length - 2 → d2.getD i 0 = d.getD i 0) :
    parseObjects d2 2 n = parseObjects d 2 n :=
  parseObjects_agree d d2 n hlen hag 2

/-- C5 witness: two concrete 18-byte frames differing only in their 2-byte
trailer yield the same parsed object list. -/
theorem C5_witness :
    parseObjects [0xFB, 1, 1, 2, 0, 0, 0, 3, 0, 0, 0, 4, 0, 0, 0, 5, 0, 0] 2 1
      = parseObjects [0xFB, 1, 1, 2, 0, 0, 0, 3, 0, 0, 0, 4, 0, 0, 0, 5, 217, 57] 2 1 :=
  C5_trailer_never_read
    [0xFB, 1, 1, 2, 0, 0, 0, 3, 0, 0, 0, 4, 0, 0, 0, 5, 217, 57]
    [0xFB, 1, 1, 2, 0, 0, 0, 3, 0, 0, 0, 4, 0, 0, 0, 5, 0, 0]
    1 (by decide) (by decide)

/-- C6: every frame shorter than 4 bytes is rejected as too short; the
outcome is the constant too-short result, which depends on no byte of the
frame (in particular not on byte 2 or beyond). -/
theorem C6_too_short (data : List Nat) (h : data.length < 4) :
    parse_and_validate data = ParseResult.tooShort := by
  simp only [parse_and_validate]
  rw [if_pos h]

/-- C6 witness: the statement at the concrete 1-byte frame `FB`. -/
theorem C6_witness : parse_and_validate [0xFB] = ParseResult.tooShort :=
  C6_too_short [0xFB] (by decide)

/-- C7: whenever `parse_and_validate` returns a packet, its object list is,
in order, the record at offset `2 + 14*i` for `i = 0, 1, ...`: class from
byte 0 and track id from byte 1 of the record, and X, Y, Z assembled
big-endian (MSB first) from bytes 2-5, 6-9 and 10-13 (see `readObject` and
`be32`). -/
theorem C7_record_layout (data : List Nat) (p : DecodedPacket)
    (h : parse_and_validate data = ParseResult.ok p) :
    p.objects = (List.range p.objects.length).map (fun i => readObject data (2 + 14 * i)) := by
  simp only [parse_and_validate] at h
  split at h
  · exact ParseResult.noConfusion h
  · split at h
    · exact ParseResult.noConfusion h
    · split at h
      · injection h with hp
        subst hp
        exact parseObjects_eq_map data _ 2
      · exact ParseResult.noConfusion h

/-- C7 witness: the statement at a concrete valid one-record frame. -/
theorem C7_witness :
    ({ header := 0xFB, nb_objects := 1, crc_received := 55609, crc_calculated := 55609,
        crc_valid := true,
        objects := [{ CLS := 1, ID_TRACK := 2, X := 3, Y := 4, Z := 5 }] } : DecodedPacket).objects
      = (List.range
            ({ header := 0xFB, nb_objects := 1, crc_received := 55609, crc_calculated := 55609,
                crc_valid := true,
                objects := [{ CLS := 1, ID_TRACK := 2, X := 3, Y := 4, Z := 5 }] }
              : DecodedPacket).objects.length).map
          (fun i => readObject [0xFB, 1, 1, 2, 0, 0, 0, 3, 0, 0, 0, 4, 0, 0, 0, 5, 217, 57]
            (2 + 14 * i)) :=
  C7_record_layout [0xFB, 1, 1, 2, 0, 0, 0, 3, 0, 0, 0, 4, 0, 0, 0, 5, 217, 57] _ (by decide)

/-- C8: decoding is total and exception-free: the byte-access-checked
variant of the decoder (where any out-of-range index aborts, modelling a
Python `IndexError`) succeeds on every input and agrees with the decoder,
so every malformed-input outcome is represented in the returned value. -/
theorem optBind_some {α β : Type} (a : α) (f : α → Option β) :
    (some a >>= f) = f a := rfl

theorem C8_no_exception (data : List Nat) :
    parse_and_validateOpt data = some (parse_and_validate data) := by
  simp only [parse_and_validateOpt, parse_and_validate]
  by_cases h4 : data.length < 4
  · rw [if_pos h4, if_pos h4]
  · rw [if_neg h4, if_neg h4]
    have hlen : 4 ≤ data.length := Nat.not_lt.1 h4
    have e2 : data[data.length - 2]? = some (data.getD (data.length - 2) 0) :=
      getElem?_eq_some_getD _ _ (by omega)
    have e1 : data[data.length - 1]? = some (data.getD (data.length - 1) 0) :=
      getElem?_eq_some_getD _ _ (by omega)
    have e0 : data[0]? = some (data.getD 0 0) := getElem?_eq_some_getD _ _ (by omega)
    have eb : data[1]? = some (data.getD 1 0) := getElem?_eq_some_getD _ _ (by omega)
    simp only [e2, e1, e0, eb, parseObjectsOpt_eq, optBind_some,
      crc_received, crc_calculated_of]
    by_cases hh : data.getD 0 0 = 0xFB
    · by_cases hv : ((data.getD (data.length - 2) 0 <<< 8 ||| data.getD (data.length - 1) 0)
          == calculate_crc16 (data.take (data.length - 2))) = true
      · rw [if_neg (fun hc : data.getD 0 0 ≠ 0xFB => hc hh), if_pos hv]
        exact congrArg some
          (by rw [if_neg (fun hc : data.getD 0 0 ≠ 0xFB => hc hh), if_pos hv])
      · rw [if_neg (fun hc : data.getD 0 0 ≠ 0xFB => hc hh), if_neg hv]
        exact congrArg some
          (by rw [if_neg (fun hc : data.getD 0 0 ≠ 0xFB => hc hh), if_neg hv])
    · rw [if_pos hh]
      exact congrArg some (by rw [if_pos hh])

/-- C8 witness: the statement at a concrete valid frame. -/
theorem C8_witness :
    parse_and_validateOpt [0xFB, 0, 0xD2, 0x34]
      = some (parse_and_validate [0xFB, 0, 0xD2, 0x34]) :=
  C8_no_exception [0xFB, 0, 0xD2, 0x34]

/-- C9: flipping any single bit of the checksummed payload region (any index
below `len(frame) - 2`) of a well-formed frame changes the computed CRC16 so
that it no longer equals the received trailer value: CRC16 detects all
single-bit flips. -/
theorem C9_single_bit_flip_detected (data : List Nat) (i j : Nat)
    (h4 : 4 ≤ data.length) (hi : i < data.length - 2) (hj : j < 8)
    (hvalid : crc_calculated_of data = crc_received data) :
    crc_calculated_of (data.set i (data.getD i 0 ^^^ 1 <<< j))
      ≠ crc_received (data.set i (data.getD i 0 ^^^ 1 <<< j)) := by
  have hrec : crc_received (data.set i (data.getD i 0 ^^^ 1 <<< j)) = crc_received data := by
    unfold crc_received
    rw [List.length_set]
    simp only [List.getD_eq_getElem?_getD]
    rw [List.getElem?_set_ne (by omega), List.getElem?_set_ne (by omega)]
  have hcomp : crc_calculated_of (data.set i (data.getD i 0 ^^^ 1 <<< j))
      ≠ crc_calculated_of data := by
    unfold crc_calculated_of
    rw [List.length_set, List.set_take]
    have hx : data.getD i 0 = (data.take (data.length - 2)).getD i 0 := by
      rw [List.getD_eq_getElem?_getD, List.getD_eq_getElem?_getD, List.getElem?_take,
        if_pos hi]
    rw [hx]
    apply calculate_crc16_flip_ne
    · rw [List.length_take]
      omega
    · exact hj
  rw [hrec, ← hvalid]
  exact hcomp

/-- C9 witness: flipping bit 0 of byte 1 of the concrete well-formed frame
`FB 00 D2 34` invalidates its CRC. -/
theorem C9_witness :
    crc_calculated_of
        (([0xFB, 0, 0xD2, 0x34] : List Nat).set 1
          (([0xFB, 0, 0xD2, 0x34] : List Nat).getD 1 0 ^^^ 1 <<< 0))
      ≠ crc_received
        (([0xFB, 0, 0xD2, 0x34] : List Nat).set 1
          (([0xFB, 0, 0xD2, 0x34] : List Nat).getD 1 0 ^^^ 1 <<< 0)) :=
  C9_single_bit_flip_detected [0xFB, 0, 0xD2, 0x34] 1 0
    (by decide) (by decide) (by decide) (by decide)

/-- C10: every packet dict actually returned by `parse_and_validate`
satisfies the success invariants: `crc_valid = true`, received CRC equals
computed CRC, header byte `0xFB`, and at most `nb_objects` parsed objects;
no result carrying `crc_valid = false` is ever produced. -/
theorem C10_ok_invariants (data : List Nat) (p : DecodedPacket)
    (h : parse_and_validate data = ParseResult.ok p) :
    p.crc_valid = true ∧ p.crc_received = p.crc_calculated ∧ p.header = 0xFB ∧
      p.objects.length ≤ p.nb_objects := by
  simp only [parse_and_validate] at h
  split at h
  · exact ParseResult.noConfusion h
  · split at h
    · exact ParseResult.noConfusion h
    · rename_i hh
      split at h
      · rename_i hv
        injection h with hp
        subst hp
        refine ⟨hv, eq_of_beq hv, not_not.mp hh, ?_⟩
        show (parseObjects data 2 (data.getD 1 0)).length ≤ data.getD 1 0
        rw [parseObjects_length]
        omega
      · exact ParseResult.noConfusion h

/-- C10 witness: the statement at the concrete valid empty frame
`FB 00 D2 34`. -/
theorem C10_witness :
    ((DecodedPacket.mk 0xFB 0 53812 53812 true []).crc_valid = true) ∧
      (DecodedPacket.mk 0xFB 0 53812 53812 true []).crc_received
        = (DecodedPacket.mk 0xFB 0 53812 53812 true []).crc_calculated ∧
      (DecodedPacket.mk 0xFB 0 53812 53812 true []).header = 0xFB ∧
      (DecodedPacket.mk 0xFB 0 53812 53812 true []).objects.length
        ≤ (DecodedPacket.mk 0xFB 0 53812 53812 true []).nb_objects :=
  C10_ok_invariants [0xFB, 0, 0xD2, 0x34] _ (by decide)
